import Mathlib

/-!
Verification development for the `binlog-parser-indexer` repository.

The Python sources (`src/parser.py`, `src/utils.py`) are shallowly embedded
here.  Python byte strings and text strings are both modelled as `List Nat`
(code points / byte values): the program decodes bytes with latin-1, under
which byte `b` becomes code point `b`, so decoding is the identity on these
lists.  Fallible code (struct.unpack on short buffers, invalid constructor
calls) is modelled with `Option` / `Except`.  Loops without a structural
bound (`BinlogParser._parse_headers`, the query generator) are modelled with
explicit fuel; `none` marks a run that did not finish within the given fuel.
-/

set_option maxRecDepth 10000

namespace Binlog

/-- Python slice `l[a:b]` for natural bounds (clamping, empty when `a ≥ b`). -/
def natSlice (l : List Nat) (a b : Nat) : List Nat :=
  (l.take b).drop a

/-- Python bound resolution for one slice index over a list of length `len`:
negative indices count from the end, positive ones clamp to `len`. -/
def pyBound (len : Nat) (i : Int) : Nat :=
  if i < 0 then ((len : Int) + i).toNat else min i.toNat len

/-- Python slice `l[a:b]` with `int` bounds (as in `data[0 : len(data) - 4]`,
where the second bound can be negative for short bodies). -/
def pySlice (l : List Nat) (a b : Int) : List Nat :=
  (l.take (pyBound l.length b)).drop (pyBound l.length a)

/-- Little-endian interpretation of a byte list, as `struct.unpack("<I", …)` /
`"<H"` / `"<Q"` do on their fixed-width input. -/
def leNat : List Nat → Nat
  | [] => 0
  | b :: rest => b + 256 * leNat rest

/-- Code points of a Lean string literal; used to write Python `str` values. -/
def toPy (s : String) : List Nat :=
  s.data.map Char.toNat

/-- `bytes.decode("latin-1")`: byte `b` decodes to code point `b`, so on the
`List Nat` representation decoding is the identity. -/
def decodeLatin1 (bs : List Nat) : List Nat := bs

/-- Python `str.upper` on one code point, restricted to the latin-1 range
(the only code points the parser ever produces, via latin-1 decoding):
ASCII lowercase maps down by 32, `ß` (0xDF) expands to `"SS"`,
`µ` (0xB5) maps to Greek capital Mu, `ÿ` (0xFF) to `Ÿ` (0x178), and the
latin-1 lowercase letters 0xE0–0xFE (except `÷` = 0xF7) map down by 32. -/
def pyUpperCp (n : Nat) : List Nat :=
  if 97 ≤ n ∧ n ≤ 122 then [n - 32]
  else if n = 0xDF then [83, 83]
  else if n = 0xB5 then [0x39C]
  else if n = 0xFF then [0x178]
  else if 0xE0 ≤ n ∧ n ≤ 0xFE ∧ n ≠ 0xF7 then [n - 32]
  else [n]

/-- Python `str.upper` on a latin-1 string. -/
def pyUpper (s : List Nat) : List Nat :=
  s.flatMap pyUpperCp

/-- Python `re` class `\s` on the latin-1 range: ASCII whitespace, the file
separators 0x1C–0x1F, NEL (0x85) and NBSP (0xA0). -/
def isSpaceCp (n : Nat) : Bool :=
  n = 32 || n = 9 || n = 10 || n = 11 || n = 12 || n = 13 ||
  n = 0x1C || n = 0x1D || n = 0x1E || n = 0x1F || n = 0x85 || n = 0xA0

/-- Python `re` class `\w` on the latin-1 range: ASCII alphanumerics and
underscore, plus the latin-1 letters ª (0xAA), µ (0xB5), º (0xBA) and
0xC0–0xFF except × (0xD7) and ÷ (0xF7). -/
def isWordCp (n : Nat) : Bool :=
  (48 ≤ n && n ≤ 57) || (65 ≤ n && n ≤ 90) || (97 ≤ n && n ≤ 122) ||
  n = 95 || n = 0xAA || n = 0xB5 || n = 0xBA ||
  (0xC0 ≤ n && n ≤ 0xFF && n ≠ 0xD7 && n ≠ 0xF7)

/-- `re.IGNORECASE` match of one pattern code point `p` (as written in the
source patterns: ASCII letters, `_`) against a subject code point `c`.
An uppercase ASCII pattern letter also matches its lowercase form and
vice versa; no other latin-1 code point case-folds onto ASCII. -/
def ciEqCp (p c : Nat) : Bool :=
  c = p || (65 ≤ p && p ≤ 90 && c = p + 32) || (97 ≤ p && p ≤ 122 && c + 32 = p)

/-- Case-insensitive prefix test: the pattern word `kw` matches at the start
of `s` under `re.IGNORECASE`. -/
def ciPrefix : List Nat → List Nat → Bool
  | [], _ => true
  | _ :: _, [] => false
  | p :: kw, c :: s => ciEqCp p c && ciPrefix kw s

/-- `\b` immediately after the first `n` code points of `s` (which are word
characters in every use below): holds at end of string or before a
non-word character. -/
def boundaryAfter (n : Nat) (s : List Nat) : Bool :=
  match s.drop n with
  | [] => true
  | c :: _ => !isWordCp c

/-- `\bKW\b` anchored at the start of `s` (the shape of every alternative in
`DDL_QUERY_PATTERN` and of the first two alternatives of
`TCL_QUERY_PATTERN`): first character is a word character, `kw` matches
case-insensitively, and a word boundary follows. -/
def wordAtStart (kw : List Nat) (s : List Nat) : Bool :=
  (match s with | [] => false | c :: _ => isWordCp c) &&
  ciPrefix kw s && boundaryAfter kw.length s

/-- The keyword alternatives of `DDL_QUERY_PATTERN` in source order. -/
def ddlKeywords : List (List Nat) :=
  [toPy "CREATE", toPy "ALTER", toPy "DROP", toPy "TRUNCATE", toPy "RENAME",
   toPy "GRANT", toPy "REVOKE", toPy "LOCK", toPy "UNLOCK"]

/-- `bool(DDL_QUERY_PATTERN.search(s))` for the source pattern
`^\b(CREATE|ALTER|DROP|TRUNCATE|RENAME|GRANT|REVOKE|LOCK|UNLOCK)\b`
with `re.IGNORECASE`: anchored at position 0 by `^`. -/
def ddlSearch (s : List Nat) : Bool :=
  ddlKeywords.any (fun kw => wordAtStart kw s)

/-- `bool(TCL_QUERY_PATTERN.search(s))` for the source pattern
`^(\bCOMMIT\b|\bROLLBACK\b|)` with `re.IGNORECASE`.  The third
alternative of the group is the empty pattern (note the trailing `|` in
the source), which matches the empty string at position 0 of any input,
so the search always succeeds. -/
def tclSearch (s : List Nat) : Bool :=
  wordAtStart (toPy "COMMIT") s || wordAtStart (toPy "ROLLBACK") s || true

/-- The statement-type literals returned by `utils.type_of_query`. -/
inductive QType where
  | INSERT | UPDATE | DELETE | REPLACE | SELECT | DDL | TCL
deriving DecidableEq, Repr

/-- `utils.type_of_query`. -/
def type_of_query (query : List Nat) : Option QType :=
  if query.length < 6 then none
  else
    let query_type := pyUpper (query.take 6)
    if query_type = toPy "INSERT" then some .INSERT
    else if query_type = toPy "UPDATE" then some .UPDATE
    else if query_type = toPy "DELETE" then some .DELETE
    else if query_type = toPy "SELECT" then some .SELECT
    else if pyUpper (query.take 7) = toPy "REPLACE" then some .REPLACE
    else
      let query_type10 := query.take 10
      if ddlSearch query_type10 then some .DDL
      else if tclSearch query_type10 then some .TCL
      else none

/-!
### A small backtracking regex engine

`utils.DB_TABLE_NAME_PATTERN` is a Python `re` pattern with ordered
alternation, greedy optional groups, greedy character-class repetition,
capturing groups and one lookahead.  The engine below implements exactly the
CPython leftmost/first-alternative/greedy-with-backtracking semantics for
that fragment, with captures carried functionally through a continuation so
that backtracking restores them. -/

/-- Regex fragment used by `DB_TABLE_NAME_PATTERN`. -/
inductive RE where
  /-- empty pattern -/
  | eps : RE
  /-- single character class -/
  | cls (p : Nat → Bool) : RE
  /-- concatenation -/
  | seq (a b : RE) : RE
  /-- ordered alternation `a|b` -/
  | alt (a b : RE) : RE
  /-- greedy option `a?` -/
  | opt (a : RE) : RE
  /-- greedy character-class repetition `[p]*` -/
  | star (p : Nat → Bool) : RE
  /-- capturing group number `i` -/
  | grp (i : Nat) (a : RE) : RE
  /-- lookahead `(?=[p]|$)` -/
  | look (p : Nat → Bool) : RE

/-- Captured groups of one match attempt, most recent first. -/
abbrev Groups := List (Nat × List Nat)

/-- Greedy backtracking for `[p]*` after the maximal run has length `j`:
try consuming `j` characters, then `j - 1`, …, then `0`. -/
def starTry (s : List Nat) (g : Groups) (k : List Nat → Groups → Option Groups) :
    Nat → Option Groups
  | 0 => k s g
  | j + 1 =>
    match k (s.drop (j + 1)) g with
    | some r => some r
    | none => starTry s g k j

/-- Backtracking matcher in continuation-passing style: try to match `re` at
the start of `s` with captures `g`, passing the rest of the input and the
updated captures to `k`. -/
def reMatch : RE → List Nat → Groups → (List Nat → Groups → Option Groups) →
    Option Groups
  | .eps, s, g, k => k s g
  | .cls p, s, g, k =>
    match s with
    | [] => none
    | c :: rest => if p c then k rest g else none
  | .seq a b, s, g, k => reMatch a s g (fun s' g' => reMatch b s' g' k)
  | .alt a b, s, g, k =>
    match reMatch a s g k with
    | some r => some r
    | none => reMatch b s g k
  | .opt a, s, g, k =>
    match reMatch a s g k with
    | some r => some r
    | none => k s g
  | .star p, s, g, k => starTry s g k (s.takeWhile p).length
  | .grp i a, s, g, k =>
    reMatch a s g (fun s' g' => k s' ((i, s.take (s.length - s'.length)) :: g'))
  | .look p, s, g, k =>
    if (match s with | [] => true | c :: _ => p c) then k s g else none

/-- `pattern.search(s)`: try a match at position 0, then at position 1, …
(leftmost match wins), returning the captures of the first success. -/
def reSearch (re : RE) : List Nat → Option Groups
  | [] => reMatch re [] [] (fun _ g => some g)
  | c :: rest =>
    match reMatch re (c :: rest) [] (fun _ g => some g) with
    | some g => some g
    | none => reSearch re rest

/-- `match.group(i)`: the most recent capture of group `i`, absent when the
group did not participate in the match. -/
def groupGet (g : Groups) (i : Nat) : Option (List Nat) :=
  (g.find? (fun e => e.1 = i)).map (fun e => e.2)

/-- Literal pattern word under `re.IGNORECASE`. -/
def litWord (kw : List Nat) : RE :=
  kw.foldr (fun c r => .seq (.cls (ciEqCp c)) r) .eps

/-- `\s+` (greedy, with backtracking). -/
def ws1 : RE := .seq (.cls isSpaceCp) (.star isSpaceCp)

/-- Concatenation of a list of fragments. -/
def reCat (l : List RE) : RE := l.foldr .seq .eps

/-- Ordered alternation of a non-empty list of fragments. -/
def reAlts : List RE → RE
  | [] => .eps
  | [r] => r
  | r :: rest => .alt r (reAlts rest)

/-- The character class `` [`"] `` (backquote or double quote). -/
def quoteCls (c : Nat) : Bool := c = 96 || c = 34

/-- The character class `[a-zA-Z_]`. -/
def identStartCls (c : Nat) : Bool :=
  (65 ≤ c && c ≤ 90) || (97 ≤ c && c ≤ 122) || c = 95

/-- The character class `[a-zA-Z0-9_$]`. -/
def identCls (c : Nat) : Bool :=
  identStartCls c || (48 ≤ c && c ≤ 57) || c = 36

/-- The character class `[a-zA-Z0-9_\s$]` (quoted table names allow spaces). -/
def identSpaceCls (c : Nat) : Bool := identCls c || isSpaceCp c

/-- The lookahead class `[\s;)]`. -/
def lookaheadCls (c : Nat) : Bool := isSpaceCp c || c = 59 || c = 41

/-- `utils.DB_TABLE_NAME_PATTERN`, alternative for alternative:

    (?:
        CREATE(?:\s+OR\s+REPLACE)?\s+(?:TEMPORARY\s+)?(?:TABLE|VIEW)\s+(?:IF\s+NOT\s+EXISTS\s+)?
        |ALTER\s+(?:TABLE|VIEW)\s+
        |DROP\s+(?:TEMPORARY\s+)?(?:TABLE|VIEW)\s+(?:IF\s+EXISTS\s+)?
        |TRUNCATE\s+(?:TABLE\s+)?
        |RENAME\s+TABLE\s+
        |INSERT\s+(?:IGNORE\s+)?(?:INTO\s+)?
        |REPLACE\s+(?:INTO\s+)?
        |UPDATE\s+(?:IGNORE\s+)?(?:\s+|\s+(?:LOW_PRIORITY)\s+)?
        |DELETE\s+(?:IGNORE\s+)?(?:FROM\s+)?
    )
    \s*
    (?:([`"]?[a-zA-Z_][a-zA-Z0-9_$]*[`"]?)\.)?
    (?:[`"]([a-zA-Z_][a-zA-Z0-9_\s$]*)[`"]|([a-zA-Z_][a-zA-Z0-9_$]*))
    (?=[\s;)]|$)

with `re.IGNORECASE | re.VERBOSE`. -/
def DB_TABLE_NAME_PATTERN : RE :=
  let W := fun (s : String) => litWord (toPy s)
  let tableOrView : RE := .alt (W "TABLE") (W "VIEW")
  let lead : RE := reAlts
    [reCat [W "CREATE", .opt (reCat [ws1, W "OR", ws1, W "REPLACE"]), ws1,
            .opt (reCat [W "TEMPORARY", ws1]), tableOrView, ws1,
            .opt (reCat [W "IF", ws1, W "NOT", ws1, W "EXISTS", ws1])],
     reCat [W "ALTER", ws1, tableOrView, ws1],
     reCat [W "DROP", ws1, .opt (reCat [W "TEMPORARY", ws1]), tableOrView, ws1,
            .opt (reCat [W "IF", ws1, W "EXISTS", ws1])],
     reCat [W "TRUNCATE", ws1, .opt (reCat [W "TABLE", ws1])],
     reCat [W "RENAME", ws1, W "TABLE", ws1],
     reCat [W "INSERT", ws1, .opt (reCat [W "IGNORE", ws1]),
            .opt (reCat [W "INTO", ws1])],
     reCat [W "REPLACE", ws1, .opt (reCat [W "INTO", ws1])],
     reCat [W "UPDATE", ws1, .opt (reCat [W "IGNORE", ws1]),
            .opt (.alt ws1 (reCat [ws1, W "LOW_PRIORITY", ws1]))],
     reCat [W "DELETE", ws1, .opt (reCat [W "IGNORE", ws1]),
            .opt (reCat [W "FROM", ws1])]]
  let dbGroup : RE := .opt (reCat
    [.grp 1 (reCat [.opt (.cls quoteCls), .cls identStartCls, .star identCls,
                    .opt (.cls quoteCls)]),
     .cls (fun c => c = 46)])
  let tableGroup : RE := .alt
    (reCat [.cls quoteCls, .grp 2 (reCat [.cls identStartCls, .star identSpaceCls]),
            .cls quoteCls])
    (.grp 3 (reCat [.cls identStartCls, .star identCls]))
  reCat [lead, .star isSpaceCp, dbGroup, tableGroup, .look lookaheadCls]

/-- `utils.parse_db_table_name_from_query`: `(match.group(1), match.group(2))`
for the first match, `(None, None)` when the pattern does not match. -/
def parse_db_table_name_from_query (query : List Nat) :
    Option (List Nat) × Option (List Nat) :=
  match reSearch DB_TABLE_NAME_PATTERN query with
  | some g => (groupGet g 1, groupGet g 2)
  | none => (none, none)

/-!
### `parser.py`: headers, body decoders, `Query`, and the stream correlator
-/

/-- Event type codes from the top of `parser.py`. -/
def QueryEventCode : Nat := 0x02
/-- `TableMapEvent = 0x13`. -/
def TableMapEventCode : Nat := 0x13
/-- `AnnotateRowsEvent = 0xA0`. -/
def AnnotateRowsEventCode : Nat := 0xA0
/-- `WriteRowsV1Event = 0x17`. -/
def WriteRowsV1EventCode : Nat := 0x17
/-- `UpdateRowsV1Event = 0x18`. -/
def UpdateRowsV1EventCode : Nat := 0x18
/-- `DeleteRowsV1Event = 0x19`. -/
def DeleteRowsV1EventCode : Nat := 0x19

/-- Exceptions the embedded code can raise. -/
inductive PyErr where
  /-- `ValueError("Invalid binlog file provided")` from `BinlogParser.__init__`
  (the spec calls this `FormatError`). -/
  | formatError
  /-- `struct.error` from unpacking a buffer shorter than the format needs. -/
  | structError
  /-- `TypeError`: `_parse_event` calls `Query(database=…, table=…, …)` but
  `Query.__init__` accepts no such keyword arguments (it requires
  `sources`), so the call raises before a `Query` is constructed. -/
  | typeError
  /-- `KeyError` from `self.table_map[table_id]`. -/
  | keyError
deriving DecidableEq, Repr

/-- `parser.EventHeader` (decoded fields of one 19-byte header). -/
structure EventHeader where
  /-- absolute byte offset of the header -/
  position : Nat
  /-- little-endian uint32 at bytes 0–3 -/
  timestamp : Nat
  /-- uint8 at byte 4 -/
  event_type : Nat
  /-- little-endian uint32 at bytes 9–12 (header + body size) -/
  event_length : Nat
  /-- little-endian uint32 at bytes 13–16 (0 = end sentinel) -/
  next_event_position : Nat
deriving DecidableEq, Repr

/-- `EventHeader.__init__`: `struct.unpack("<IB4xII2x", data)` on a 19-byte
slice (the caller's loop guard guarantees the length, so the
`struct.error` branch is unreachable). -/
def EventHeader.unpack (data : List Nat) (cur_pos : Nat) : EventHeader :=
  { position := cur_pos
    timestamp := leNat (natSlice data 0 4)
    event_type := data.getD 4 0
    event_length := leNat (natSlice data 9 13)
    next_event_position := leNat (natSlice data 13 17) }

/-- `BinlogParser._parse_headers`, with explicit fuel for the unbounded
`while` loop: starting at `position`, decode a 19-byte header while one
fits, stop at `next_event_position == 0`, else continue there.  `none`
means the loop did not finish within `fuel` iterations. -/
def parseHeadersFuel : Nat → List Nat → Nat → List EventHeader →
    Option (List EventHeader)
  | 0, _, _, _ => none
  | fuel + 1, data, position, headers =>
    if position + 19 ≤ data.length then
      let header := EventHeader.unpack (natSlice data position (position + 19)) position
      let headers := headers ++ [header]
      if header.next_event_position = 0 then some headers
      else parseHeadersFuel fuel data header.next_event_position headers
    else some headers

/-- A terminating run never revisits a position (the loop is deterministic, a
revisit loops forever), and every visited position is at most
`data.length`, so `data.length + 1` iterations of fuel are complete:
`parse_headers data = none` exactly when the Python loop never ends. -/
def parse_headers (data : List Nat) : Option (List EventHeader) :=
  parseHeadersFuel (data.length + 1) data 4 []

/-- `parser.TableMapEventData` (decoded fields). -/
structure TableMapEventData where
  /-- first 6 bytes, little-endian, zero-extended to 8 -/
  table_id : Nat
  /-- database name bytes, latin-1 decoded -/
  db : List Nat
  /-- table name bytes, latin-1 decoded -/
  table : List Nat
deriving DecidableEq, Repr

/-- `TableMapEventData.__init__`.  `struct.unpack("<Q", data[:6] + b"\x00\x00")`
needs 6 body bytes, `struct.unpack("!B", data[8:9])` needs 9, and
`struct.unpack("!B", data[10+l : 11+l])` needs `10 + l < len`; a shorter
body raises `struct.error` (`none`). -/
def TableMapEventData.parse (data : List Nat) : Option TableMapEventData :=
  if 6 ≤ data.length then
    let table_id := leNat (natSlice data 0 6 ++ [0, 0])
    if 9 ≤ data.length then
      let db_name_len := data.getD 8 0
      let db := decodeLatin1 (natSlice data 9 (9 + db_name_len))
      if 10 + db_name_len < data.length then
        let table_name_len := data.getD (10 + db_name_len) 0
        some { table_id := table_id, db := db
               table := decodeLatin1 (natSlice data (11 + db_name_len)
                          (11 + db_name_len + table_name_len)) }
      else none
    else none
  else none

/-- `parser.AnnotateRowsEventData` (decoded fields). -/
structure AnnotateRowsEventData where
  /-- `_query_start = 0` -/
  query_start : Int
  /-- `_query_end = len(data) - 4` (the trailing checksum), possibly negative -/
  query_end : Int
  /-- annotated statement text -/
  query : List Nat
  /-- `type_of_query(query)` -/
  query_type : Option QType
  /-- group 1 of `parse_db_table_name_from_query(query)` -/
  db : Option (List Nat)
  /-- group 2 of `parse_db_table_name_from_query(query)` -/
  table : Option (List Nat)
deriving DecidableEq, Repr

/-- `AnnotateRowsEventData.__init__`: the body minus the last 4 bytes is the
statement text; type, database and table come from the classifier. -/
def AnnotateRowsEventData.parse (data : List Nat) : AnnotateRowsEventData :=
  let query_start : Int := 0
  let query_end : Int := (data.length : Int) - 4
  let query := decodeLatin1 (pySlice data query_start query_end)
  let dbTable := parse_db_table_name_from_query query
  { query_start := query_start, query_end := query_end, query := query
    query_type := type_of_query query, db := dbTable.1, table := dbTable.2 }

/-- `parser.QueryEventData` (decoded fields). -/
structure QueryEventData where
  /-- header-derived database, overridden by a truthy classifier database -/
  db : List Nat
  /-- `_query_start = 13 + status_vars_len + db_name_len + 1` -/
  query_start : Int
  /-- `_query_end = len(data) - 4` -/
  query_end : Int
  /-- statement text -/
  query : List Nat
  /-- group 2 of `parse_db_table_name_from_query(query)` -/
  table : Option (List Nat)
  /-- `type_of_query(query)` -/
  query_type : Option QType
deriving DecidableEq, Repr

/-- `QueryEventData.__init__`.  `struct.unpack("<B", data[8:9])` needs 9 body
bytes and `struct.unpack("<H", data[11:13])` needs 13; shorter bodies
raise `struct.error` (`none`).  A truthy (non-empty) classifier database
overrides the header-derived one. -/
def QueryEventData.parse (data : List Nat) : Option QueryEventData :=
  if 9 ≤ data.length then
    let db_name_len := data.getD 8 0
    if 13 ≤ data.length then
      let status_vars_len := leNat (natSlice data 11 13)
      let db_name_start := 13 + status_vars_len
      let db := decodeLatin1 (natSlice data db_name_start (db_name_start + db_name_len))
      let query_start : Int := (db_name_start + db_name_len + 1 : Nat)
      let query_end : Int := (data.length : Int) - 4
      let query := decodeLatin1 (pySlice data query_start query_end)
      let dbTable := parse_db_table_name_from_query query
      some { db := match dbTable.1 with
                   | some d => if d ≠ [] then d else db
                   | none => db
             query_start := query_start, query_end := query_end, query := query
             table := dbTable.2, query_type := type_of_query query }
    else none
  else none

/-- `parser.Query` (constructed fields).  `sources` entries mix the cache's
`(str, str)` pairs (wrapped in `some`) with the classifier's
`(Optional[str], Optional[str])` fallback pair. -/
structure Query where
  /-- list of `(database, table)` pairs -/
  sources : List (Option (List Nat) × Option (List Nat))
  /-- owning header's timestamp -/
  timestamp : Nat
  /-- statement type -/
  type : QType
  /-- statement text, possibly truncated -/
  query : List Nat
  /-- set when the text was truncated -/
  is_truncated : Bool
  /-- absolute file offset of the text start -/
  query_start : Int
  /-- absolute file offset of the text end -/
  query_end : Int
  /-- owning header's position -/
  event_start : Nat
  /-- owning header's event_length -/
  event_length : Nat
  /-- absolute end offset of the last correlated raw event -/
  related_events_end_pos : Nat
deriving DecidableEq, Repr

/-- `Query.__init__`: store the fields; if the text exceeds 500 characters,
replace it with the first 200 + `"..."` + the last 300 and set
`is_truncated`. -/
def Query.make (sources : List (Option (List Nat) × Option (List Nat)))
    (timestamp : Nat) (type : QType) (query : List Nat)
    (event_start event_length : Nat) (query_start query_end : Int)
    (related_events_end_pos : Nat) : Query :=
  let is_truncated := 500 < query.length
  let query' := if 500 < query.length then
      query.take 200 ++ toPy "..." ++ query.drop (query.length - 300)
    else query
  { sources := sources, timestamp := timestamp, type := type, query := query'
    is_truncated := is_truncated, query_start := query_start
    query_end := query_end, event_start := event_start
    event_length := event_length
    related_events_end_pos := related_events_end_pos }

/-- `BinlogParser.ALLOWED_EVENT_TYPES`. -/
def ALLOWED_EVENT_TYPES : List Nat :=
  [TableMapEventCode, QueryEventCode, AnnotateRowsEventCode,
   WriteRowsV1EventCode, UpdateRowsV1EventCode, DeleteRowsV1EventCode]

/-- The mutable state of a `BinlogParser` instance. -/
structure ParserState where
  /-- the input buffer -/
  data : List Nat
  /-- `cur_header_index` -/
  cur_header_index : Nat
  /-- `table_map` dict, most recent insertion first -/
  table_map : List (Nat × (List Nat × List Nat))
  /-- the decoded header list -/
  headers : List EventHeader
deriving DecidableEq, Repr

/-- `BinlogParser.current_header`. -/
def currentHeader (st : ParserState) : Option EventHeader :=
  st.headers.get? st.cur_header_index

/-- `BinlogParser.next_header`. -/
def nextHeader (st : ParserState) : Option EventHeader :=
  st.headers.get? (st.cur_header_index + 1)

/-- `BinlogParser.move_to_next_header`. -/
def moveToNext (st : ParserState) : ParserState :=
  { st with cur_header_index := st.cur_header_index + 1 }

/-- `BinlogParser._get_body`: `data[position + 19 : position + event_length]`. -/
def getBody (st : ParserState) (header : EventHeader) : List Nat :=
  natSlice st.data (header.position + 19) (header.position + header.event_length)

/-- Python dict lookup `table_map[table_id]` (the most recent insertion wins). -/
def tableMapGet (m : List (Nat × (List Nat × List Nat))) (table_id : Nat) :
    Option (List Nat × List Nat) :=
  (m.find? (fun e => e.1 = table_id)).map (fun e => e.2)

/-- The first `while` loop of the AnnotateRows branch of
`BinlogParser._parse_event`, with fuel bounding the number of iterations:
while the next header is a TableMapEvent, decode it, upsert the cache,
append its table_id, advance, and clear the `move_to_next_header` flag.
Each iteration both advances the cursor and consumes one unit of fuel, so
when the fuel of `consumeTableMaps` below runs out the cursor is already
past the last header and the loop condition is false anyway: the `0` case
returns exactly what the exhausted loop returns. -/
def consumeTableMapsFuel : Nat → ParserState → List Nat → Bool →
    Except PyErr (ParserState × List Nat × Bool)
  | 0, st, ids, moved => .ok (st, ids, moved)
  | fuel + 1, st, ids, moved =>
    match nextHeader st with
    | some nh =>
      if nh.event_type = TableMapEventCode then
        match TableMapEventData.parse (getBody st nh) with
        | none => .error .structError
        | some tm =>
          consumeTableMapsFuel fuel
            { moveToNext st with
              table_map := (tm.table_id, (tm.db, tm.table)) :: st.table_map }
            (ids ++ [tm.table_id]) false
      else .ok (st, ids, moved)
    | none => .ok (st, ids, moved)

/-- The table-map loop with the fuel it can never exhaust: the loop iterates
only while `cur_header_index + 1 < headers.length`. -/
def consumeTableMaps (st : ParserState) (ids : List Nat) (moved : Bool) :
    Except PyErr (ParserState × List Nat × Bool) :=
  consumeTableMapsFuel (st.headers.length - st.cur_header_index) st ids moved

/-- The second `while` loop of the AnnotateRows branch, with fuel as above:
while the next header is a Rows event, advance past it and clear the
flag. -/
def consumeRowsFuel : Nat → ParserState → Bool → ParserState × Bool
  | 0, st, moved => (st, moved)
  | fuel + 1, st, moved =>
    match nextHeader st with
    | some nh =>
      if nh.event_type = WriteRowsV1EventCode ∨
         nh.event_type = UpdateRowsV1EventCode ∨
         nh.event_type = DeleteRowsV1EventCode then
        consumeRowsFuel fuel (moveToNext st) false
      else (st, moved)
    | none => (st, moved)

/-- The rows loop with the fuel it can never exhaust. -/
def consumeRows (st : ParserState) (moved : Bool) : ParserState × Bool :=
  consumeRowsFuel (st.headers.length - st.cur_header_index) st moved

/-- `BinlogParser._parse_event`: one correlator step on `header` (the current
header), returning the optional emitted `Query` and the successor state,
or the exception the step raises. -/
def parseEvent (st : ParserState) (header : EventHeader) :
    Except PyErr (Option Query × ParserState) :=
  if header.event_type ∉ ALLOWED_EVENT_TYPES then .ok (none, moveToNext st)
  else if header.event_type = QueryEventCode then
    match QueryEventData.parse (getBody st header) with
    | none => .error .structError
    | some event =>
      if event.query_type ≠ some .TCL then
        -- the source here calls `Query(database=…, table=…, …)`, keyword
        -- arguments `Query.__init__` does not accept: TypeError
        .error .typeError
      else .ok (none, moveToNext st)
  else if header.event_type = AnnotateRowsEventCode then
    let annotateRowsData := AnnotateRowsEventData.parse (getBody st header)
    match consumeTableMaps st [] true with
    | .error e => .error e
    | .ok (st1, current_table_map_ids, moved1) =>
      let rowsType : Option QType :=
        match nextHeader st1 with
        | some nh =>
          if nh.event_type = WriteRowsV1EventCode then some .INSERT
          else if nh.event_type = UpdateRowsV1EventCode then some .UPDATE
          else if nh.event_type = DeleteRowsV1EventCode then some .DELETE
          else none
        | none => none
      let query_type : Option QType :=
        match rowsType with
        | some t => some t
        | none => annotateRowsData.query_type
      let consumed2 := consumeRows st1 moved1
      let st2 := consumed2.1
      let moved := consumed2.2
      match query_type with
      | some t =>
        match current_table_map_ids.mapM (fun i => tableMapGet st2.table_map i) with
        | none => .error .keyError
        | some resolved =>
          let sources := if resolved = [] then
              [(annotateRowsData.db, annotateRowsData.table)]
            else resolved.map (fun s => (some s.1, some s.2))
          let related_events_end_pos :=
            match currentHeader st2 with
            | some ch => ch.position + ch.event_length
            | none => header.position + header.event_length
          let result := Query.make sources header.timestamp t
            annotateRowsData.query header.position header.event_length
            (annotateRowsData.query_start + header.position + 19)
            (annotateRowsData.query_end + header.position + 19)
            related_events_end_pos
          .ok (some result, if moved then moveToNext st2 else st2)
      | none => .ok (none, if moved then moveToNext st2 else st2)
  else .ok (none, moveToNext st)

/-- `BinlogParser.parse_queries`, collected into a list, with fuel for the
`while self.current_header` loop; `none` marks fuel exhaustion (which
cannot happen with fuel `headers.length + 1`, every step advancing the
cursor). -/
def runQueriesFuel : Nat → ParserState → Option (Except PyErr (List Query))
  | 0, st =>
    match currentHeader st with
    | none => some (.ok [])
    | some _ => none
  | fuel + 1, st =>
    match currentHeader st with
    | none => some (.ok [])
    | some header =>
      match parseEvent st header with
      | .error e => some (.error e)
      | .ok (q, st') =>
        (runQueriesFuel fuel st').map (fun r =>
          r.map (fun qs => q.toList ++ qs))

/-- `BinlogParser.__init__`: check the 4-byte magic signature, then index the
headers.  The outer `none` marks a header-indexing loop that never
terminates. -/
def binlogInit (data : List Nat) : Option (Except PyErr ParserState) :=
  if data.length < 4 ∨ natSlice data 0 4 ≠ [0xFE, 0x62, 0x69, 0x6E] then
    some (.error .formatError)
  else
    (parse_headers data).map (fun headers =>
      .ok { data := data, cur_header_index := 0, table_map := [], headers := headers })

/-- Construct a parser on `data` and collect `parse_queries()`. -/
def runBinlog (data : List Nat) : Option (Except PyErr (List Query)) :=
  match binlogInit data with
  | none => none
  | some (.error e) => some (.error e)
  | some (.ok st) => runQueriesFuel (st.headers.length + 1) st

/-!
### Concrete input buffers used by the counterexamples and witnesses
-/

/-- The 4-byte magic signature `b"\xfe\x62\x69\x6e"`. -/
def magicBytes : List Nat := [0xFE, 0x62, 0x69, 0x6E]

/-- A buffer holding one QueryEvent whose statement is `SELECT 1 FROM t`
(header database `d`, no status variables): classified SELECT ≠ TCL, so
the correlator reaches the invalid `Query(database=…, table=…)` call. -/
def queryEventBuf : List Nat :=
  magicBytes ++
  [0, 0, 0, 0, 0x02, 0, 0, 0, 0, 53, 0, 0, 0, 0, 0, 0, 0, 0, 0] ++
  ([0, 0, 0, 0, 0, 0, 0, 0, 1, 0, 0, 0, 0, 100, 0] ++
   toPy "SELECT 1 FROM t" ++ [0, 0, 0, 0])

/-- A buffer holding one AnnotateRowsEvent whose text is `COMMIT tx`, with no
following events: classified TCL, and a TCL `Query` is emitted. -/
def annotateCommitBuf : List Nat :=
  magicBytes ++
  [0, 0, 0, 0, 0xA0, 0, 0, 0, 0, 32, 0, 0, 0, 0, 0, 0, 0, 0, 0] ++
  (toPy "COMMIT tx" ++ [0, 0, 0, 0])

/-- The claim C4 input: TableMapEvent(table_id=1, db="d", table="t"), then
AnnotateRowsEvent("UPDATE t SET x=1"), then UpdateRowsV1Event. -/
def c4Buf : List Nat :=
  magicBytes ++
  [0, 0, 0, 0, 0x13, 0, 0, 0, 0, 32, 0, 0, 0, 36, 0, 0, 0, 0, 0] ++
  [1, 0, 0, 0, 0, 0, 0, 0, 1, 100, 0, 1, 116] ++
  [0, 0, 0, 0, 0xA0, 0, 0, 0, 0, 39, 0, 0, 0, 75, 0, 0, 0, 0, 0] ++
  (toPy "UPDATE t SET x=1" ++ [0, 0, 0, 0]) ++
  [0, 0, 0, 0, 0x18, 0, 0, 0, 0, 19, 0, 0, 0, 0, 0, 0, 0, 0, 0]

/-- The `Query` the parser emits on `c4Buf`. -/
def c4Query : Query :=
  { sources := [(none, none)], timestamp := 0, type := .UPDATE
    query := toPy "UPDATE t SET x=1", is_truncated := false
    query_start := 55, query_end := 71, event_start := 36, event_length := 39
    related_events_end_pos := 94 }

/-- The `Query` the parser emits on `annotateCommitBuf`. -/
def annotateCommitQuery : Query :=
  { sources := [(none, none)], timestamp := 0, type := .TCL
    query := toPy "COMMIT tx", is_truncated := false
    query_start := 23, query_end := 32, event_start := 4, event_length := 32
    related_events_end_pos := 36 }

/-- A valid-magic buffer whose single header points back at itself
(`next_event_position = 4`): the header-indexing loop never terminates. -/
def selfLoopBuf : List Nat :=
  magicBytes ++ [0, 0, 0, 0, 0, 0, 0, 0, 0, 0, 0, 0, 0, 4, 0, 0, 0, 0, 0]

/-- A valid-magic buffer whose single header is all zero bytes: decoded with
`event_length = 0` (no ≥ 19 validation) and `next_event_position = 0`. -/
def zeroHeaderBuf : List Nat :=
  magicBytes ++ List.replicate 19 0

deriving instance DecidableEq for Except

/-!
### Spec-side definitions

These definitions follow the specification's words, for comparison with the
code-derived definitions above.
-/

/-- Modelled from the spec: the classifier's type resolution exactly as claim
C2 states it — the four DML keywords on the first 6 characters
(case-insensitively), REPLACE on the first 7, the DDL keyword set matched
(as a keyword, i.e. up to a word boundary) at the start of the first 10,
COMMIT/ROLLBACK anchored at the start for TCL, and none otherwise. -/
def claimTypeOfQuery (q : List Nat) : Option QType :=
  if pyUpper (q.take 6) = toPy "INSERT" then some .INSERT
  else if pyUpper (q.take 6) = toPy "UPDATE" then some .UPDATE
  else if pyUpper (q.take 6) = toPy "DELETE" then some .DELETE
  else if pyUpper (q.take 6) = toPy "SELECT" then some .SELECT
  else if pyUpper (q.take 7) = toPy "REPLACE" then some .REPLACE
  else if ddlSearch (q.take 10) then some .DDL
  else if wordAtStart (toPy "COMMIT") q || wordAtStart (toPy "ROLLBACK") q then
    some .TCL
  else none

/-- Claim C2 as amended: texts shorter than 6 characters resolve to none;
then the cascade of claim C2, except that the final branch returns TCL
for every remaining text (the source's TCL pattern contains an empty
alternative, so it matches everything), and none is unreachable. -/
def amendedTypeOfQuery (q : List Nat) : Option QType :=
  if q.length < 6 then none
  else if pyUpper (q.take 6) = toPy "INSERT" then some .INSERT
  else if pyUpper (q.take 6) = toPy "UPDATE" then some .UPDATE
  else if pyUpper (q.take 6) = toPy "DELETE" then some .DELETE
  else if pyUpper (q.take 6) = toPy "SELECT" then some .SELECT
  else if pyUpper (q.take 7) = toPy "REPLACE" then some .REPLACE
  else if ddlSearch (q.take 10) then some .DDL
  else some .TCL

/-- Termination of the header-indexing loop on `data` (any fuel that lets the
`while` loop run to completion). -/
def headersTerminate (data : List Nat) : Prop :=
  ∃ fuel hs, parseHeadersFuel fuel data 4 [] = some hs

/-- A one-header parser state (a FormatDescriptionEvent, which the correlator
skips), used to exercise the correlator step at a concrete input. -/
def fdState : ParserState :=
  { data := [], cur_header_index := 0, table_map := []
    headers := [⟨4, 0, 0x0F, 19, 0⟩] }

/-- A parser state whose single header is the AnnotateRowsEvent of
`annotateCommitBuf`, with the same buffer. -/
def annotateCommitState : ParserState :=
  { data := annotateCommitBuf, cur_header_index := 0, table_map := []
    headers := [⟨4, 0, 0xA0, 32, 0⟩] }

/-- A parser state whose single header is the QueryEvent of a buffer whose
statement text is `COMMIT`: body bytes (db_name_len 0, no status vars,
empty db, null, text, 4-byte checksum) at offset 23. -/
def queryCommitState : ParserState :=
  { data := magicBytes ++
      [0, 0, 0, 0, 0x02, 0, 0, 0, 0, 43, 0, 0, 0, 0, 0, 0, 0, 0, 0] ++
      ([0, 0, 0, 0, 0, 0, 0, 0, 0, 0, 0, 0, 0, 0] ++ toPy "COMMIT" ++ [0, 0, 0, 0])
    cur_header_index := 0, table_map := []
    headers := [⟨4, 0, 0x02, 43, 0⟩] }

end Binlog

namespace Binlog

/-!
### Theorems

Sanity checks on the embedded classifier and table-name extractor, general
lemmas about the embedded functions, and the claim theorems.
-/

example : type_of_query (toPy "SELECT 1 FROM t") = some .SELECT := by decide
example : type_of_query (toPy "insert into x values (1)") = some .INSERT := by decide
example : type_of_query (toPy "DROP t") = some .DDL := by decide
example : type_of_query (toPy "COMMIT") = some .TCL := by decide
example : type_of_query (toPy "DROP") = none := by decide
example : type_of_query (toPy "TRUNCATEXY Z") = some .TCL := by decide
example : parse_db_table_name_from_query (toPy "UPDATE t SET x=1") =
    (none, none) := by decide
example : parse_db_table_name_from_query (toPy "INSERT INTO d2.tbl VALUES (1)") =
    (some (toPy "d2"), none) := by decide
example : parse_db_table_name_from_query (toPy "INSERT INTO d2.`tb l` VALUES (1)") =
    (some (toPy "d2"), some (toPy "tb l")) := by decide
example : parse_db_table_name_from_query (toPy "COMMIT tx") = (none, none) := by
  decide

/-- The TCL pattern search always succeeds: its group ends with an empty
alternative, which matches at position 0 of every input. -/
theorem tclSearch_eq_true (s : List Nat) : tclSearch s = true := by
  simp [tclSearch]

/-- C2, counterexample: the claim resolves `foobar` to none ("none for every
other text"), but `type_of_query` classifies it TCL — the TCL pattern's
trailing empty alternative matches everything, so the none branch is
unreachable for texts of length ≥ 6. -/
theorem c2_counterexample :
    type_of_query (toPy "foobar") = some .TCL ∧
    claimTypeOfQuery (toPy "foobar") = none := by
  constructor <;> decide

/-- C2 as amended: `type_of_query` returns none exactly for texts shorter
than 6 characters; on longer texts it follows the claimed cascade
(first 6 characters for INSERT/UPDATE/DELETE/SELECT, first 7 for
REPLACE, DDL keyword at the start of the first 10), but classifies every
remaining text TCL instead of none. -/
theorem c2_amended_typeResolution (q : List Nat) :
    type_of_query q = amendedTypeOfQuery q := by
  unfold type_of_query amendedTypeOfQuery
  by_cases h6 : q.length < 6
  · simp [h6]
  · simp only [h6, if_false, tclSearch_eq_true (q.take 10), if_true]

/-- C7: `Query` construction truncates exactly the texts longer than 500
characters, to first 200 + `"..."` + last 300 = 503 characters, setting
`is_truncated`; shorter texts are stored unchanged. -/
theorem c7_truncation (sources : List (Option (List Nat) × Option (List Nat)))
    (ts : Nat) (ty : QType) (q : List Nat) (es el : Nat) (qs qe : Int)
    (re : Nat) :
    (500 < q.length →
      (Query.make sources ts ty q es el qs qe re).query =
        q.take 200 ++ toPy "..." ++ q.drop (q.length - 300) ∧
      (Query.make sources ts ty q es el qs qe re).query.length = 503 ∧
      (Query.make sources ts ty q es el qs qe re).is_truncated = true) ∧
    (q.length ≤ 500 →
      (Query.make sources ts ty q es el qs qe re).query = q ∧
      (Query.make sources ts ty q es el qs qe re).is_truncated = false) := by
  constructor
  · intro h
    refine ⟨by simp [Query.make, h], ?_, by simp [Query.make, h]⟩
    simp only [Query.make, if_pos h, List.length_append, List.length_take,
      List.length_drop]
    have h3 : (toPy "...").length = 3 := rfl
    omega
  · intro h
    have h' : ¬ 500 < q.length := by omega
    exact ⟨by simp [Query.make, h'], by simp [Query.make, h']⟩

/-- Witness for C7 at concrete inputs: a 700-character text truncates to 503
characters with `is_truncated`, a 500-character text is unchanged. -/
theorem c7_truncation_witness :
    ((Query.make [] 0 .SELECT (List.replicate 700 97) 0 0 0 0 0).query.length
       = 503 ∧
     (Query.make [] 0 .SELECT (List.replicate 700 97) 0 0 0 0 0).is_truncated
       = true) ∧
    ((Query.make [] 0 .SELECT (List.replicate 500 97) 0 0 0 0 0).query =
       List.replicate 500 97 ∧
     (Query.make [] 0 .SELECT (List.replicate 500 97) 0 0 0 0 0).is_truncated
       = false) :=
  ⟨((c7_truncation [] 0 .SELECT (List.replicate 700 97) 0 0 0 0 0).1
      (by simp)).2,
   (c7_truncation [] 0 .SELECT (List.replicate 500 97) 0 0 0 0 0).2 (by simp)⟩

/-- C8: a buffer shorter than 4 bytes, or whose first 4 bytes are not the
magic signature, makes parser construction fail with the format error
(`ValueError` in the source, `FormatError` in the spec), before any
header is produced; the whole run reports the same error. -/
theorem c8_badMagic (data : List Nat)
    (h : data.length < 4 ∨ natSlice data 0 4 ≠ magicBytes) :
    binlogInit data = some (.error .formatError) ∧
    runBinlog data = some (.error .formatError) := by
  have hcond : data.length < 4 ∨ natSlice data 0 4 ≠ [0xFE, 0x62, 0x69, 0x6E] := h
  have h1 : binlogInit data = some (.error .formatError) := by
    unfold binlogInit
    rw [if_pos hcond]
  exact ⟨h1, by unfold runBinlog; rw [h1]⟩

/-- Witness for C8 at the empty buffer. -/
theorem c8_badMagic_witness :
    binlogInit [] = some (.error .formatError) ∧
    runBinlog [] = some (.error .formatError) :=
  c8_badMagic [] (Or.inl (by decide))

/-- C1: on a QueryEvent whose body decodes to the non-TCL statement
`SELECT 1 FROM t`, the correlator step raises `TypeError` instead of
emitting a `Query`: the source calls `Query(database=…, table=…, …)`,
keyword arguments `Query.__init__` does not accept (it requires
`sources`).  The claimed emission is the evident intent (`Query` stores
a `sources` list and the spec says "emit one `Query` with a single
source"); the call itself is the slip. -/
theorem c1_queryEvent_raises :
    runBinlog queryEventBuf = some (.error .typeError) ∧
    (QueryEventData.parse
        (natSlice queryEventBuf 23 57)).map QueryEventData.query_type =
      some (some .SELECT) := by
  constructor <;> decide

/-- C3, counterexample: an AnnotateRowsEvent whose text is `COMMIT tx`, with
no following table-map or rows event, makes the parser emit a `Query`
whose type is TCL — contradicting "a Query with type TCL is never
emitted". -/
theorem c3_counterexample :
    runBinlog annotateCommitBuf = some (.ok [annotateCommitQuery]) ∧
    annotateCommitQuery.type = .TCL := by
  constructor <;> decide

/-- C4, counterexample: on the claimed input (TableMapEvent before the
AnnotateRowsEvent) the emitted `Query`'s sources are `[(None, None)]`,
not `[("d","t")]`: the correlator only consumes TableMapEvents that
follow an AnnotateRowsEvent, so the preceding one is skipped uncached,
and the fallback extractor returns group 2 of its pattern, which is only
bound for quoted table names — `t` is unquoted. -/
theorem c4_counterexample :
    runBinlog c4Buf = some (.ok [c4Query]) ∧
    c4Query.sources ≠ [(some (toPy "d"), some (toPy "t"))] := by
  constructor <;> decide

/-- C4 as amended: the input TableMapEvent(1, "d", "t") →
AnnotateRowsEvent("UPDATE t SET x=1") → UpdateRowsV1Event yields exactly
one `Query`, with type UPDATE and related_events_end_pos the end offset
of the UpdateRowsV1 event (75 + 19), but with sources `[(None, None)]`
from the annotated text. -/
theorem c4_amended :
    runBinlog c4Buf = some (.ok [c4Query]) ∧
    c4Query.type = .UPDATE ∧
    c4Query.sources = [(none, none)] ∧
    c4Query.related_events_end_pos = 75 + 19 := by
  refine ⟨by decide, by decide, by decide, by decide⟩

/-- C6, counterexample: header indexing succeeds on a valid-magic buffer
whose single header stores event_length 0 — the decoder performs no
`event_length ≥ 19` validation. -/
theorem c6_counterexample :
    parse_headers zeroHeaderBuf = some [⟨4, 0, 0, 0, 0⟩] ∧
    ¬ 19 ≤ (EventHeader.mk 4 0 0 0 0).event_length := by
  constructor <;> decide

/-- The accumulator of the header-indexing loop is a pure prefix of its
result. -/
theorem parseHeadersFuel_append (fuel : Nat) :
    ∀ data pos acc, parseHeadersFuel fuel data pos acc =
      (parseHeadersFuel fuel data pos []).map (fun t => acc ++ t) := by
  induction fuel with
  | zero => intro data pos acc; rfl
  | succ n ih =>
    intro data pos acc
    simp only [parseHeadersFuel]
    by_cases hg : pos + 19 ≤ data.length
    · simp only [hg, if_true]
      by_cases hz :
          (EventHeader.unpack (natSlice data pos (pos + 19)) pos).next_event_position = 0
      · simp [hz]
      · simp only [hz, if_neg, if_false]
        rw [ih data _ (acc ++ [_]), ih data _ ([] ++ [_])]
        cases parseHeadersFuel n data _ [] <;> simp
    · simp [hg]

/-- Taking the sub-slice `[9:13]` of a 19-byte header slice at `p` reads the
bytes `[p+9 : p+13]` of the underlying buffer. -/
theorem natSlice_inner (l : List Nat) (p : Nat) :
    natSlice (natSlice l p (p + 19)) 9 13 = natSlice l (p + 9) (p + 13) := by
  simp only [natSlice, List.drop_take, List.take_take, List.drop_drop]
  norm_num
  congr 1
  omega

/-- Every header the indexing loop produces is the decode of the 19-byte
slice of the buffer at its recorded position, and that slice fits the
buffer. -/
theorem parseHeadersFuel_decodes (fuel : Nat) :
    ∀ data pos hs, parseHeadersFuel fuel data pos [] = some hs →
      ∀ h ∈ hs, h.position + 19 ≤ data.length ∧
        h = EventHeader.unpack
              (natSlice data h.position (h.position + 19)) h.position := by
  induction fuel with
  | zero =>
    intro data pos hs hsome
    exact absurd hsome (by simp [parseHeadersFuel])
  | succ n ih =>
    intro data pos hs hsome h hmem
    simp only [parseHeadersFuel] at hsome
    by_cases hg : pos + 19 ≤ data.length
    · rw [if_pos hg] at hsome
      by_cases hz :
          (EventHeader.unpack (natSlice data pos (pos + 19)) pos).next_event_position = 0
      · rw [if_pos hz] at hsome
        obtain rfl : [] ++ [EventHeader.unpack (natSlice data pos (pos + 19)) pos] = hs :=
          Option.some.inj hsome
        obtain rfl : h = EventHeader.unpack (natSlice data pos (pos + 19)) pos := by
          simpa using hmem
        exact ⟨hg, rfl⟩
      · rw [if_neg hz, parseHeadersFuel_append] at hsome
        cases hfn : parseHeadersFuel n data
            (EventHeader.unpack (natSlice data pos (pos + 19)) pos).next_event_position [] with
        | none => rw [hfn] at hsome; exact absurd hsome (by simp)
        | some hs' =>
          rw [hfn] at hsome
          obtain rfl :
              ([] ++ [EventHeader.unpack (natSlice data pos (pos + 19)) pos]) ++ hs' = hs :=
            Option.some.inj hsome
          rcases List.mem_append.mp hmem with hmem1 | hmem2
          · obtain rfl : h = EventHeader.unpack (natSlice data pos (pos + 19)) pos := by
              simpa using hmem1
            exact ⟨hg, rfl⟩
          · exact ih data _ hs' hfn h hmem2
    · rw [if_neg hg] at hsome
      obtain rfl : ([] : List EventHeader) = hs := Option.some.inj hsome
      exact absurd hmem (List.not_mem_nil h)

/-- C6 as amended: header indexing validates nothing about `event_length`;
each produced header simply records the little-endian 32-bit field at
offset 9 of its in-bounds 19-byte header slice, which can be any value
(including values below 19, as `c6_counterexample` shows). -/
theorem c6_amended_eventLength (data : List Nat) (fuel : Nat)
    (hs : List EventHeader)
    (hrun : parseHeadersFuel fuel data 4 [] = some hs) :
    ∀ h ∈ hs, h.position + 19 ≤ data.length ∧
      h.event_length = leNat (natSlice data (h.position + 9) (h.position + 13)) := by
  intro h hmem
  obtain ⟨hfit, hdec⟩ := parseHeadersFuel_decodes fuel data 4 hs hrun h hmem
  refine ⟨hfit, ?_⟩
  have hlen := congrArg EventHeader.event_length hdec
  rw [hlen]
  show leNat (natSlice (natSlice data h.position (h.position + 19)) 9 13) = _
  rw [natSlice_inner]

/-- Witness for the amended C6 on the concrete buffer `zeroHeaderBuf`. -/
theorem c6_amended_eventLength_witness :
    (⟨4, 0, 0, 0, 0⟩ : EventHeader).position + 19 ≤ zeroHeaderBuf.length ∧
    (⟨4, 0, 0, 0, 0⟩ : EventHeader).event_length =
      leNat (natSlice zeroHeaderBuf (4 + 9) (4 + 13)) :=
  c6_amended_eventLength zeroHeaderBuf (zeroHeaderBuf.length + 1)
    [⟨4, 0, 0, 0, 0⟩] (by decide) ⟨4, 0, 0, 0, 0⟩ (by decide)

/-- The header-indexing loop on `selfLoopBuf` revisits position 4 forever:
no amount of fuel finishes it. -/
theorem selfLoop_stuck (fuel : Nat) :
    ∀ acc, parseHeadersFuel fuel selfLoopBuf 4 acc = none := by
  induction fuel with
  | zero => intro acc; rfl
  | succ n ih =>
    intro acc
    have step : parseHeadersFuel (n + 1) selfLoopBuf 4 acc =
        parseHeadersFuel n selfLoopBuf 4
          (acc ++ [EventHeader.unpack (natSlice selfLoopBuf 4 (4 + 19)) 4]) := rfl
    rw [step]
    exact ih _

/-- C5, counterexample: `selfLoopBuf` starts with the magic signature but its
header's `next_event_position` points back at the header itself, and the
header-indexing pass never terminates (the loop body has no progress
check on `next_event_position`). -/
theorem c5_counterexample :
    4 ≤ selfLoopBuf.length ∧ natSlice selfLoopBuf 0 4 = magicBytes ∧
    ¬ headersTerminate selfLoopBuf := by
  refine ⟨by decide, by decide, ?_⟩
  rintro ⟨fuel, hs, h⟩
  rw [selfLoop_stuck fuel []] at h
  exact Option.noConfusion h

/-- When every in-bounds header position decodes to a `next_event_position`
that is 0 or strictly beyond it, the indexing loop terminates with
strictly increasing positions. -/
theorem parseHeadersFuel_increasing (data : List Nat)
    (H : ∀ pos, pos < data.length → pos + 19 ≤ data.length →
      (EventHeader.unpack (natSlice data pos (pos + 19)) pos).next_event_position = 0 ∨
      pos < (EventHeader.unpack (natSlice data pos (pos + 19)) pos).next_event_position) :
    ∀ fuel pos, data.length + 1 - pos < fuel →
      ∃ hs, parseHeadersFuel fuel data pos [] = some hs ∧
        (hs.map EventHeader.position).Chain' (· < ·) ∧
        ∀ h ∈ hs, pos ≤ h.position := by
  intro fuel
  induction fuel with
  | zero => intro pos hlt; omega
  | succ n ih =>
    intro pos hlt
    simp only [parseHeadersFuel]
    by_cases hg : pos + 19 ≤ data.length
    · rw [if_pos hg]
      rcases H pos (by omega) hg with hz | hnext
      · rw [if_pos hz]
        refine ⟨[EventHeader.unpack (natSlice data pos (pos + 19)) pos], rfl, ?_, ?_⟩
        · simp
        · intro h hmem
          obtain rfl : h = EventHeader.unpack (natSlice data pos (pos + 19)) pos := by
            simpa using hmem
          exact le_refl pos
      · rw [if_neg (by omega), parseHeadersFuel_append]
        obtain ⟨hs', hsome', hchain', hmem'⟩ := ih
          (EventHeader.unpack (natSlice data pos (pos + 19)) pos).next_event_position
          (by omega)
        rw [hsome']
        refine ⟨_ , rfl, ?_, ?_⟩
        · simp only [List.nil_append, List.singleton_append, List.map_cons]
          rw [List.chain'_cons']
          refine ⟨?_, hchain'⟩
          intro b hb
          rcases hhead : (hs'.map EventHeader.position).head? with _ | b'
          · rw [hhead] at hb; exact absurd hb (by simp)
          · rw [hhead] at hb
            obtain rfl : b' = b := by simpa using hb
            have hb'mem : b' ∈ hs'.map EventHeader.position :=
              List.mem_of_mem_head? hhead
            obtain ⟨h', hh'mem, rfl⟩ := List.mem_map.mp hb'mem
            have := hmem' h' hh'mem
            show (EventHeader.unpack (natSlice data pos (pos + 19)) pos).position <
              h'.position
            show pos < h'.position
            omega
        · intro h hmem
          rcases List.mem_append.mp hmem with hmem1 | hmem2
          · obtain rfl : h = EventHeader.unpack (natSlice data pos (pos + 19)) pos := by
              simpa using hmem1
            exact le_refl pos
          · have := hmem' h hmem2
            omega
    · rw [if_neg hg]
      exact ⟨[], rfl, by simp, by simp⟩

/-- C5 as amended: on a valid-magic buffer the header-indexing pass
terminates with strictly increasing positions, provided each decodable
header's `next_event_position` is 0 or beyond its own position; without
that proviso, the pass can run forever (`c5_counterexample`). -/
theorem c5_amended_termination (data : List Nat)
    (_hmagic : 4 ≤ data.length ∧ natSlice data 0 4 = magicBytes)
    (H : ∀ pos, pos < data.length → pos + 19 ≤ data.length →
      (EventHeader.unpack (natSlice data pos (pos + 19)) pos).next_event_position = 0 ∨
      pos < (EventHeader.unpack (natSlice data pos (pos + 19)) pos).next_event_position) :
    ∃ hs, parse_headers data = some hs ∧
      (hs.map EventHeader.position).Chain' (· < ·) := by
  obtain ⟨hs, h1, h2, -⟩ :=
    parseHeadersFuel_increasing data H (data.length + 1) 4 (by omega)
  exact ⟨hs, h1, h2⟩

/-- Witness for the amended C5 on the concrete buffer `zeroHeaderBuf`. -/
theorem c5_amended_termination_witness :
    ∃ hs, parse_headers zeroHeaderBuf = some hs ∧
      (hs.map EventHeader.position).Chain' (· < ·) :=
  c5_amended_termination zeroHeaderBuf ⟨by decide, by decide⟩ (by decide)

/-- The table-map lookahead loop preserves buffer and header list, and either
leaves state, ids and flag untouched or advances the cursor and clears
the flag. -/
theorem consumeTableMapsFuel_spec (fuel : Nat) :
    ∀ st ids moved st' ids' moved',
      consumeTableMapsFuel fuel st ids moved = .ok (st', ids', moved') →
      st'.headers = st.headers ∧ st'.data = st.data ∧
      ((st' = st ∧ ids' = ids ∧ moved' = moved) ∨
       (st.cur_header_index < st'.cur_header_index ∧ moved' = false)) := by
  induction fuel with
  | zero =>
    intro st ids moved st' ids' moved' h
    obtain ⟨rfl, rfl, rfl⟩ :
        st = st' ∧ ids = ids' ∧ moved = moved' := by
      simpa [consumeTableMapsFuel] using h
    exact ⟨rfl, rfl, Or.inl ⟨rfl, rfl, rfl⟩⟩
  | succ n ih =>
    intro st ids moved st' ids' moved' h
    simp only [consumeTableMapsFuel] at h
    cases hn : nextHeader st with
    | none =>
      rw [hn] at h
      obtain ⟨rfl, rfl, rfl⟩ : st = st' ∧ ids = ids' ∧ moved = moved' := by
        simpa using h
      exact ⟨rfl, rfl, Or.inl ⟨rfl, rfl, rfl⟩⟩
    | some nh =>
      rw [hn] at h
      dsimp only at h
      by_cases htm : nh.event_type = TableMapEventCode
      · rw [if_pos htm] at h
        cases hparse : TableMapEventData.parse (getBody st nh) with
        | none => rw [hparse] at h; exact absurd h (by simp)
        | some tm =>
          rw [hparse] at h
          obtain ⟨h1, h2, h3⟩ := ih _ _ _ _ _ _ h
          refine ⟨h1, h2, Or.inr ?_⟩
          rcases h3 with ⟨rfl, -, rfl⟩ | ⟨hlt, rfl⟩
          · exact ⟨Nat.lt_succ_self _, rfl⟩
          · refine ⟨?_, rfl⟩
            have : st.cur_header_index + 1 < st'.cur_header_index := hlt
            omega
      · rw [if_neg htm] at h
        obtain ⟨rfl, rfl, rfl⟩ : st = st' ∧ ids = ids' ∧ moved = moved' := by
          simpa using h
        exact ⟨rfl, rfl, Or.inl ⟨rfl, rfl, rfl⟩⟩

/-- The rows lookahead loop preserves buffer, header list and cache, and
either leaves state and flag untouched or advances the cursor and clears
the flag. -/
theorem consumeRowsFuel_spec (fuel : Nat) :
    ∀ st moved st' moved', consumeRowsFuel fuel st moved = (st', moved') →
      st'.headers = st.headers ∧ st'.data = st.data ∧
      st'.table_map = st.table_map ∧
      ((st' = st ∧ moved' = moved) ∨
       (st.cur_header_index < st'.cur_header_index ∧ moved' = false)) := by
  induction fuel with
  | zero =>
    intro st moved st' moved' h
    obtain ⟨rfl, rfl⟩ : st = st' ∧ moved = moved' := by
      simpa [consumeRowsFuel] using h
    exact ⟨rfl, rfl, rfl, Or.inl ⟨rfl, rfl⟩⟩
  | succ n ih =>
    intro st moved st' moved' h
    simp only [consumeRowsFuel] at h
    cases hn : nextHeader st with
    | none =>
      rw [hn] at h
      obtain ⟨rfl, rfl⟩ : st = st' ∧ moved = moved' := by simpa using h
      exact ⟨rfl, rfl, rfl, Or.inl ⟨rfl, rfl⟩⟩
    | some nh =>
      rw [hn] at h
      dsimp only at h
      by_cases hr : nh.event_type = WriteRowsV1EventCode ∨
          nh.event_type = UpdateRowsV1EventCode ∨
          nh.event_type = DeleteRowsV1EventCode
      · rw [if_pos hr] at h
        obtain ⟨h1, h2, h3, h4⟩ := ih _ _ _ _ h
        refine ⟨h1, h2, h3, Or.inr ?_⟩
        rcases h4 with ⟨rfl, rfl⟩ | ⟨hlt, rfl⟩
        · exact ⟨Nat.lt_succ_self _, rfl⟩
        · refine ⟨?_, rfl⟩
          have : st.cur_header_index + 1 < st'.cur_header_index := hlt
          omega
      · rw [if_neg hr] at h
        obtain ⟨rfl, rfl⟩ : st = st' ∧ moved = moved' := by simpa using h
        exact ⟨rfl, rfl, rfl, Or.inl ⟨rfl, rfl⟩⟩

/-- A successful correlator step preserves the header list and advances the
cursor by at least one. -/
theorem parseEvent_advances (st : ParserState) (header : EventHeader)
    (q : Option Query) (st' : ParserState)
    (h : parseEvent st header = .ok (q, st')) :
    st'.headers = st.headers ∧
    st.cur_header_index < st'.cur_header_index := by
  unfold parseEvent at h
  by_cases hallow : header.event_type ∉ ALLOWED_EVENT_TYPES
  · rw [if_pos hallow] at h
    have hst : moveToNext st = st' := (Prod.ext_iff.mp (Except.ok.inj h)).2
    exact hst ▸ ⟨rfl, Nat.lt_succ_self _⟩
  · rw [if_neg hallow] at h
    by_cases hq : header.event_type = QueryEventCode
    · rw [if_pos hq] at h
      cases hparse : QueryEventData.parse (getBody st header) with
      | none => rw [hparse] at h; exact absurd h (by simp)
      | some ev =>
        rw [hparse] at h
        dsimp only at h
        by_cases htcl : ev.query_type ≠ some QType.TCL
        · rw [if_pos htcl] at h; exact absurd h (by simp)
        · rw [if_neg htcl] at h
          have hst : moveToNext st = st' := (Prod.ext_iff.mp (Except.ok.inj h)).2
          exact hst ▸ ⟨rfl, Nat.lt_succ_self _⟩
    · rw [if_neg hq] at h
      by_cases ha : header.event_type = AnnotateRowsEventCode
      · rw [if_pos ha] at h
        cases htm : consumeTableMaps st [] true with
        | error e => rw [htm] at h; exact absurd h (by simp)
        | ok out1 =>
          obtain ⟨st1, ids, moved1⟩ := out1
          rw [htm] at h
          have htm2 : consumeTableMapsFuel
              (st.headers.length - st.cur_header_index) st [] true =
              .ok (st1, ids, moved1) := htm
          obtain ⟨e1, -, d1⟩ := consumeTableMapsFuel_spec _ _ _ _ _ _ _ htm2
          dsimp only at h
          cases hcr : consumeRows st1 moved1 with
          | mk st2 moved2 =>
            rw [hcr] at h
            have hcr2 : consumeRowsFuel
                (st1.headers.length - st1.cur_header_index) st1 moved1 =
                (st2, moved2) := hcr
            obtain ⟨e2, -, -, d2⟩ := consumeRowsFuel_spec _ _ _ _ _ hcr2
            have hle1 : st.cur_header_index ≤ st1.cur_header_index := by
              rcases d1 with ⟨rfl, -, -⟩ | ⟨hlt, -⟩
              · exact le_refl _
              · exact le_of_lt hlt
            have hle2 : st1.cur_header_index ≤ st2.cur_header_index := by
              rcases d2 with ⟨rfl, -⟩ | ⟨hlt, -⟩
              · exact le_refl _
              · exact le_of_lt hlt
            have hstrict : moved2 = false →
                st.cur_header_index < st2.cur_header_index := by
              intro hf
              rcases d2 with ⟨rfl, hmm⟩ | ⟨hlt, -⟩
              · rcases d1 with ⟨rfl, -, hm1⟩ | ⟨hlt1, -⟩
                · rw [hf, hm1] at hmm; exact absurd hmm (by simp)
                · exact hlt1
              · omega
            have hheads : st2.headers = st.headers := e2.trans e1
            have hfin : ∀ x : Option Query,
                (Except.ok (ε := PyErr)
                  (x, if moved2 then moveToNext st2 else st2)) = .ok (q, st') →
                st'.headers = st.headers ∧
                st.cur_header_index < st'.cur_header_index := by
              intro x hx
              have hst : (if moved2 then moveToNext st2 else st2) = st' :=
                (Prod.ext_iff.mp (Except.ok.inj hx)).2
              rw [← hst]
              cases hm2 : moved2 with
              | true =>
                simp only [if_true]
                refine ⟨hheads, ?_⟩
                show st.cur_header_index < st2.cur_header_index + 1
                omega
              | false =>
                simp only [if_false, Bool.false_eq_true]
                exact ⟨hheads, hstrict hm2⟩
            dsimp only at h
            split at h
            · split at h
              · exact absurd h (by simp)
              · exact hfin _ h
            · exact hfin _ h
      · rw [if_neg ha] at h
        have hst : moveToNext st = st' := (Prod.ext_iff.mp (Except.ok.inj h)).2
        exact hst ▸ ⟨rfl, Nat.lt_succ_self _⟩

/-- With fuel at least `headers.length + 1 - cur_header_index` the query
generator finishes (each correlator step advances the cursor). -/
theorem runQueriesFuel_total (fuel : Nat) :
    ∀ st : ParserState, st.headers.length + 1 - st.cur_header_index ≤ fuel →
      ∃ r, runQueriesFuel fuel st = some r := by
  induction fuel with
  | zero =>
    intro st hf
    have hnone : currentHeader st = none := by
      unfold currentHeader
      exact List.get?_eq_none.mpr (by omega)
    refine ⟨.ok [], ?_⟩
    simp only [runQueriesFuel, hnone]
  | succ n ih =>
    intro st hf
    simp only [runQueriesFuel]
    cases hc : currentHeader st with
    | none => exact ⟨.ok [], rfl⟩
    | some header =>
      dsimp only
      have hlt : st.cur_header_index < st.headers.length := by
        unfold currentHeader at hc
        have := List.get?_eq_some.mp hc
        exact this.1
      cases hp : parseEvent st header with
      | error e => exact ⟨.error e, rfl⟩
      | ok out =>
        obtain ⟨q, st'⟩ := out
        dsimp only
        obtain ⟨hheads, hadv⟩ := parseEvent_advances st header q st' hp
        obtain ⟨r, hr⟩ := ih st' (by rw [hheads]; omega)
        exact ⟨r.map (fun qs => q.toList ++ qs), by rw [hr]; rfl⟩

/-- C10: every correlator step that returns advances the cursor by at least 1
and keeps the header list, so the query-sequence generator over any
parser state finishes within `headers.length + 1` steps, yielding a
finite sequence. -/
theorem c10_generator_terminates :
    (∀ st header q st', parseEvent st header = .ok (q, st') →
       st.cur_header_index < st'.cur_header_index ∧ st'.headers = st.headers) ∧
    (∀ st : ParserState, ∃ r, runQueriesFuel (st.headers.length + 1) st = some r) := by
  constructor
  · intro st header q st' hp
    obtain ⟨hheads, hadv⟩ := parseEvent_advances st header q st' hp
    exact ⟨hadv, hheads⟩
  · intro st
    exact runQueriesFuel_total (st.headers.length + 1) st (by omega)

/-- Witness for C10: the correlator step on a concrete one-header state (a
FormatDescriptionEvent) advances the cursor and preserves the headers. -/
theorem c10_generator_terminates_witness :
    fdState.cur_header_index < (moveToNext fdState).cur_header_index ∧
    (moveToNext fdState).headers = fdState.headers :=
  c10_generator_terminates.1 fdState ⟨4, 0, 0x0F, 19, 0⟩ none (moveToNext fdState)
    (by decide)

/-- When the next header is not a TableMapEvent, the table-map lookahead loop
returns its inputs unchanged. -/
theorem consumeTableMaps_idle (st : ParserState) (ids : List Nat) (moved : Bool)
    (h : ∀ nh, nextHeader st = some nh → nh.event_type ≠ TableMapEventCode) :
    consumeTableMaps st ids moved = .ok (st, ids, moved) := by
  unfold consumeTableMaps
  cases hfuel : st.headers.length - st.cur_header_index with
  | zero => rfl
  | succ n =>
    simp only [consumeTableMapsFuel]
    cases hn : nextHeader st with
    | none => rfl
    | some nh =>
      dsimp only
      rw [if_neg (h nh hn)]

/-- When the next header is not a Rows event, the rows lookahead loop returns
its inputs unchanged. -/
theorem consumeRows_idle (st : ParserState) (moved : Bool)
    (h : ∀ nh, nextHeader st = some nh →
      ¬(nh.event_type = WriteRowsV1EventCode ∨
        nh.event_type = UpdateRowsV1EventCode ∨
        nh.event_type = DeleteRowsV1EventCode)) :
    consumeRows st moved = (st, moved) := by
  unfold consumeRows
  cases hfuel : st.headers.length - st.cur_header_index with
  | zero => rfl
  | succ n =>
    simp only [consumeRowsFuel]
    cases hn : nextHeader st with
    | none => rfl
    | some nh =>
      dsimp only
      rw [if_neg (h nh hn)]

/-- C9: a correlator step on an AnnotateRowsEvent that is followed by neither
a TableMapEvent nor a Rows event emits (when it emits at all) a `Query`
whose single source is the (database, table) pair the classifier derives
from the annotated text itself. -/
theorem c9_annotate_fallback (st : ParserState) (header : EventHeader)
    (q : Query) (st' : ParserState)
    (ht : header.event_type = AnnotateRowsEventCode)
    (hnext : ∀ nh, nextHeader st = some nh →
      nh.event_type ≠ TableMapEventCode ∧
      nh.event_type ≠ WriteRowsV1EventCode ∧
      nh.event_type ≠ UpdateRowsV1EventCode ∧
      nh.event_type ≠ DeleteRowsV1EventCode)
    (hp : parseEvent st header = .ok (some q, st')) :
    q.sources = [((AnnotateRowsEventData.parse (getBody st header)).db,
                  (AnnotateRowsEventData.parse (getBody st header)).table)] := by
  have hTM : consumeTableMaps st [] true = .ok (st, [], true) :=
    consumeTableMaps_idle st [] true (fun nh hn => (hnext nh hn).1)
  have hR : consumeRows st true = (st, true) :=
    consumeRows_idle st true (fun nh hn => by
      rcases hnext nh hn with ⟨-, h2, h3, h4⟩
      rintro (h | h | h)
      · exact h2 h
      · exact h3 h
      · exact h4 h)
  unfold parseEvent at hp
  rw [if_neg (by rw [ht]; decide : ¬header.event_type ∉ ALLOWED_EVENT_TYPES)] at hp
  rw [if_neg (by rw [ht]; decide : ¬header.event_type = QueryEventCode)] at hp
  rw [if_pos ht] at hp
  rw [hTM] at hp
  dsimp only at hp
  have hrows : (match nextHeader st with
      | some nh =>
        if nh.event_type = WriteRowsV1EventCode then some QType.INSERT
        else if nh.event_type = UpdateRowsV1EventCode then some QType.UPDATE
        else if nh.event_type = DeleteRowsV1EventCode then some QType.DELETE
        else none
      | none => none : Option QType) = none := by
    cases hn : nextHeader st with
    | none => rfl
    | some nh =>
      rcases hnext nh hn with ⟨-, h2, h3, h4⟩
      dsimp only
      rw [if_neg h2, if_neg h3, if_neg h4]
  rw [hrows] at hp
  rw [hR] at hp
  dsimp only at hp
  cases hqt : (AnnotateRowsEventData.parse (getBody st header)).query_type with
  | none =>
    rw [hqt] at hp
    exact absurd (Prod.ext_iff.mp (Except.ok.inj hp)).1 (by simp)
  | some t =>
    rw [hqt] at hp
    rw [show (List.mapM (fun i => tableMapGet st.table_map i) [] :
          Option (List (List Nat × List Nat))) = some [] from rfl] at hp
    dsimp only at hp
    rw [if_pos rfl] at hp
    have hq := (Prod.ext_iff.mp (Except.ok.inj hp)).1
    have hq' := Option.some.inj hq
    rw [← hq']
    rfl

/-- No DDL keyword pattern matches a text starting `CO…` (only CREATE shares
the first letter, and it requires `R` second). -/
theorem ddlSearch_co (t : List Nat) : ddlSearch (67 :: 79 :: t) = false := by
  simp [ddlSearch, ddlKeywords, wordAtStart, ciPrefix, ciEqCp, toPy]

/-- No DDL keyword pattern matches a text starting `RO…` (RENAME and REVOKE
share the first letter but require `E` second). -/
theorem ddlSearch_ro (t : List Nat) : ddlSearch (82 :: 79 :: t) = false := by
  simp [ddlSearch, ddlKeywords, wordAtStart, ciPrefix, ciEqCp, toPy]

/-- A statement text starting with `COMMIT` is classified TCL. -/
theorem type_of_query_commitStart (r : List Nat) :
    type_of_query (toPy "COMMIT" ++ r) = some .TCL := by
  have hC : toPy "COMMIT" = [67, 79, 77, 77, 73, 84] := by decide
  rw [hC]
  unfold type_of_query
  rw [if_neg (by simp)]
  have h6 : ([67, 79, 77, 77, 73, 84] ++ r).take 6 = [67, 79, 77, 77, 73, 84] := by
    simp [List.take_append_eq_append_take]
  have h7 : ([67, 79, 77, 77, 73, 84] ++ r).take 7 =
      [67, 79, 77, 77, 73, 84] ++ r.take 1 := by
    simp [List.take_append_eq_append_take]
  have h10 : ([67, 79, 77, 77, 73, 84] ++ r).take 10 =
      [67, 79, 77, 77, 73, 84] ++ r.take 4 := by
    simp [List.take_append_eq_append_take]
  dsimp only
  rw [h6, h7, h10]
  rw [show pyUpper [67, 79, 77, 77, 73, 84] = [67, 79, 77, 77, 73, 84] by decide]
  rw [if_neg (by decide), if_neg (by decide), if_neg (by decide),
    if_neg (by decide)]
  rw [if_neg ?hrep]
  case hrep =>
    simp only [pyUpper, List.flatMap_append]
    rw [show ([67, 79, 77, 77, 73, 84] : List Nat).flatMap pyUpperCp =
      [67, 79, 77, 77, 73, 84] by decide]
    intro hEq
    rw [show toPy "REPLACE" = [82, 69, 80, 76, 65, 67, 69] by decide] at hEq
    simp at hEq
  rw [if_neg (by simpa using ddlSearch_co (77 :: 77 :: 73 :: 84 :: r.take 4))]
  rw [if_pos (by rw [tclSearch_eq_true])]

/-- A statement text starting with `ROLLBACK` is classified TCL. -/
theorem type_of_query_rollbackStart (r : List Nat) :
    type_of_query (toPy "ROLLBACK" ++ r) = some .TCL := by
  have hR : toPy "ROLLBACK" = [82, 79, 76, 76, 66, 65, 67, 75] := by decide
  rw [hR]
  unfold type_of_query
  rw [if_neg (by simp)]
  have h6 : ([82, 79, 76, 76, 66, 65, 67, 75] ++ r).take 6 =
      [82, 79, 76, 76, 66, 65] := by
    simp [List.take_append_eq_append_take]
  have h7 : ([82, 79, 76, 76, 66, 65, 67, 75] ++ r).take 7 =
      [82, 79, 76, 76, 66, 65, 67] := by
    simp [List.take_append_eq_append_take]
  have h10 : ([82, 79, 76, 76, 66, 65, 67, 75] ++ r).take 10 =
      [82, 79, 76, 76, 66, 65, 67, 75] ++ r.take 2 := by
    simp [List.take_append_eq_append_take]
  dsimp only
  rw [h6, h7, h10]
  rw [if_neg (by decide), if_neg (by decide), if_neg (by decide),
    if_neg (by decide), if_neg (by decide)]
  rw [if_neg (by simpa using ddlSearch_ro (76 :: 76 :: 66 :: 65 :: 67 :: 75 :: r.take 2))]
  rw [if_pos (by rw [tclSearch_eq_true])]

/-- A decoded `QueryEventData` stores the classifier's type of its own text. -/
theorem QueryEventData.parse_type (b : List Nat) (d : QueryEventData)
    (h : QueryEventData.parse b = some d) :
    d.query_type = type_of_query d.query := by
  unfold QueryEventData.parse at h
  by_cases h9 : 9 ≤ b.length
  · rw [if_pos h9] at h
    by_cases h13 : 13 ≤ b.length
    · rw [if_pos h13] at h
      dsimp only at h
      obtain rfl := Option.some.inj h
      rfl
    · rw [if_neg h13] at h; exact absurd h (by simp)
  · rw [if_neg h9] at h; exact absurd h (by simp)

/-- C3 as amended: every `Query` the correlator emits comes from the
AnnotateRowsEvent branch, with a type fixed by a following Rows event
(INSERT/UPDATE/DELETE) or else taken verbatim from the classifier's type
of the annotated text — which may be TCL (`c3_counterexample`); and a
QueryEvent whose statement text starts with `COMMIT` or `ROLLBACK` is
classified TCL and yields no `Query` (the step just advances). -/
theorem c3_amended_tclPolicy :
    (∀ st header q st', parseEvent st header = .ok (some q, st') →
       header.event_type = AnnotateRowsEventCode ∧
       (q.type = .INSERT ∨ q.type = .UPDATE ∨ q.type = .DELETE ∨
        some q.type =
          (AnnotateRowsEventData.parse (getBody st header)).query_type)) ∧
    (∀ st header d, header.event_type = QueryEventCode →
       QueryEventData.parse (getBody st header) = some d →
       (toPy "COMMIT" <+: d.query ∨ toPy "ROLLBACK" <+: d.query) →
       parseEvent st header = .ok (none, moveToNext st)) := by
  constructor
  · intro st header q st' hp
    unfold parseEvent at hp
    by_cases hallow : header.event_type ∉ ALLOWED_EVENT_TYPES
    · rw [if_pos hallow] at hp
      exact absurd (Prod.ext_iff.mp (Except.ok.inj hp)).1 (by simp)
    · rw [if_neg hallow] at hp
      by_cases hq : header.event_type = QueryEventCode
      · rw [if_pos hq] at hp
        cases hparse : QueryEventData.parse (getBody st header) with
        | none => rw [hparse] at hp; exact absurd hp (by simp)
        | some ev =>
          rw [hparse] at hp
          dsimp only at hp
          by_cases htcl : ev.query_type ≠ some QType.TCL
          · rw [if_pos htcl] at hp; exact absurd hp (by simp)
          · rw [if_neg htcl] at hp
            exact absurd (Prod.ext_iff.mp (Except.ok.inj hp)).1 (by simp)
      · rw [if_neg hq] at hp
        by_cases ha : header.event_type = AnnotateRowsEventCode
        · rw [if_pos ha] at hp
          refine ⟨ha, ?_⟩
          cases htm : consumeTableMaps st [] true with
          | error e => rw [htm] at hp; exact absurd hp (by simp)
          | ok out1 =>
            obtain ⟨st1, ids, moved1⟩ := out1
            rw [htm] at hp
            dsimp only at hp
            split at hp
            next t heq =>
              split at hp
              · exact absurd hp (by simp)
              · have hq' := Option.some.inj (Prod.ext_iff.mp (Except.ok.inj hp)).1
                have hty : q.type = t := by rw [← hq']; rfl
                rw [hty]
                split at heq
                next t' heq2 =>
                  obtain rfl : t' = t := Option.some.inj heq
                  split at heq2
                  next nh hnh =>
                    split at heq2
                    · exact Or.inl (Option.some.inj heq2).symm
                    · split at heq2
                      · exact Or.inr (Or.inl (Option.some.inj heq2).symm)
                      · split at heq2
                        · exact Or.inr (Or.inr (Or.inl (Option.some.inj heq2).symm))
                        · exact absurd heq2 (by simp)
                  next hnh => exact absurd heq2 (by simp)
                next heq2 => exact Or.inr (Or.inr (Or.inr heq.symm))
            next heq => exact absurd (Prod.ext_iff.mp (Except.ok.inj hp)).1 (by simp)
        · rw [if_neg ha] at hp
          exact absurd (Prod.ext_iff.mp (Except.ok.inj hp)).1 (by simp)
  · intro st header d hq hparse hpre
    have htcl : d.query_type = some .TCL := by
      rw [QueryEventData.parse_type _ _ hparse]
      rcases hpre with ⟨r, hr⟩ | ⟨r, hr⟩
      · rw [← hr]; exact type_of_query_commitStart r
      · rw [← hr]; exact type_of_query_rollbackStart r
    unfold parseEvent
    rw [if_neg (by rw [hq]; decide : ¬header.event_type ∉ ALLOWED_EVENT_TYPES)]
    rw [if_pos hq, hparse]
    dsimp only
    rw [if_neg (by simp [htcl])]

/-- Witness for the amended C3: on `annotateCommitState` the emitted query's
type is the classifier's TCL verdict on the annotated text, and on
`queryCommitState` (QueryEvent with text `COMMIT`) the step emits nothing
and advances. -/
theorem c3_amended_tclPolicy_witness :
    ((⟨4, 0, 0xA0, 32, 0⟩ : EventHeader).event_type = AnnotateRowsEventCode ∧
     (annotateCommitQuery.type = .INSERT ∨ annotateCommitQuery.type = .UPDATE ∨
      annotateCommitQuery.type = .DELETE ∨
      some annotateCommitQuery.type =
        (AnnotateRowsEventData.parse
          (getBody annotateCommitState ⟨4, 0, 0xA0, 32, 0⟩)).query_type)) ∧
    parseEvent queryCommitState ⟨4, 0, 0x02, 43, 0⟩ =
      .ok (none, moveToNext queryCommitState) :=
  ⟨c3_amended_tclPolicy.1 annotateCommitState ⟨4, 0, 0xA0, 32, 0⟩
     annotateCommitQuery (moveToNext annotateCommitState) (by decide),
   c3_amended_tclPolicy.2 queryCommitState ⟨4, 0, 0x02, 43, 0⟩
     { db := [], query_start := 14, query_end := 20, query := toPy "COMMIT"
       table := none, query_type := some .TCL }
     rfl (by decide) (Or.inl ⟨[], by decide⟩)⟩

/-- Witness for C9 on the concrete AnnotateRowsEvent state of
`annotateCommitBuf` (no following events at all). -/
theorem c9_annotate_fallback_witness :
    annotateCommitQuery.sources =
      [((AnnotateRowsEventData.parse
           (getBody annotateCommitState ⟨4, 0, 0xA0, 32, 0⟩)).db,
        (AnnotateRowsEventData.parse
           (getBody annotateCommitState ⟨4, 0, 0xA0, 32, 0⟩)).table)] :=
  c9_annotate_fallback annotateCommitState ⟨4, 0, 0xA0, 32, 0⟩
    annotateCommitQuery (moveToNext annotateCommitState) rfl
    (fun nh hn => by
      rw [(by decide : nextHeader annotateCommitState = none)] at hn
      exact Option.noConfusion hn)
    (by decide)

end Binlog
